import Mathlib

/-!
# Verification of the LLM debate orchestration engine

Shallow embedding of the core of the `llmdebate` repository:

* `consensus_engine.py` — the `ConsensusEngine` class (pairwise similarity,
  consensus detection);
* `backend/models.py` — the data model (`DebateStatus`, `DebaterResponse`,
  `ConsensusAnalysis`, `DebateRound`, `DebateResult`, `DebateState`,
  `MCPContext`);
* `debate_workflow.py` — the `DebateWorkflow` state machine
  (graph nodes, `_should_continue_debate` routing, `conduct_debate` boundary).

Conventions of the embedding:

* Python floats become `ℚ`; external numeric kernels (sentence-transformer
  embeddings and sklearn cosine similarity) are oracle parameters of type
  `String → String → ℚ` mapping a pair of preprocessed texts to a score.
* Fallible external calls (Ollama agent calls, orchestrator LLM calls) are
  oracle values of type `Except String α`; an `Except.error e` models the
  awaited call raising an exception with message `e`.
* `datetime` timestamps and log statements are not modelled: no claim
  depends on them.
* Python dicts with string keys become association lists `List (String × _)`.
-/

namespace LLMDebate

/-! ## Data model (`backend/models.py`) -/

/-- The `DebateStatus` enum from `models.py`. `error` is the spec's `Failed`. -/
inductive DebateStatus where
  | initializing
  | in_progress
  | consensus_reached
  | max_rounds_exceeded
  | error
deriving DecidableEq, Repr

/-- The `DebaterResponse` pydantic model (timestamp omitted). -/
structure DebaterResponse where
  debater_name : String
  model : String
  response : String
  round_number : Nat
  response_length : Nat := 0
deriving DecidableEq, Repr

/-- The `ConsensusAnalysis` pydantic model. The pairwise-similarity dict becomes
an association list keyed by the `response_i_vs_j` strings. -/
structure ConsensusAnalysis where
  similarity_scores : List (String × ℚ)
  average_similarity : ℚ
  consensus_reached : Bool
  threshold_used : ℚ
  analysis_method : String
  details : Option String := none
deriving DecidableEq, Repr

/-- The `DebateRound` pydantic model (timestamp omitted). -/
structure DebateRound where
  round_number : Nat
  question : String
  debater_responses : List DebaterResponse
  consensus_analysis : Option ConsensusAnalysis := none
  orchestrator_feedback : Option String := none
deriving DecidableEq, Repr

/-- The `DebateResult` pydantic model (start/end time and duration omitted). -/
structure DebateResult where
  original_question : String
  total_rounds : Nat
  final_status : DebateStatus
  rounds : List DebateRound
  consensus_reached : Bool := false
  final_summary : Option String := none
  consensus_evolution : List ℚ := []
deriving DecidableEq, Repr

/-- The `DebateState` pydantic model: the LangGraph state record. -/
structure DebateState where
  question : String
  current_round : Nat := 0
  max_rounds : Nat := 3
  consensus_threshold : ℚ := 85/100
  debater_responses : List DebaterResponse := []
  consensus_scores : List ℚ := []
  status : DebateStatus := DebateStatus.initializing
  orchestrator_feedback : Option String := none
  final_summary : Option String := none
  rounds_history : List DebateRound := []
deriving DecidableEq, Repr

/-- The `MCPContext` pydantic model. `shared_knowledge`'s `Any` values are
modelled as strings (the claims only concern insertion discipline). -/
structure MCPContext where
  shared_knowledge : List (String × String) := []
  conversation_history : List String := []
  key_concepts : List String := []
  agreed_facts : List String := []
  disputed_points : List String := []
deriving DecidableEq, Repr

/-- Method `MCPContext.add_agreed_fact`: insert only if not already present. -/
def MCPContext.add_agreed_fact (ctx : MCPContext) (fact : String) : MCPContext :=
  if fact ∈ ctx.agreed_facts then ctx
  else { ctx with agreed_facts := ctx.agreed_facts ++ [fact] }

/-- Method `MCPContext.add_disputed_point`: insert only if not already present. -/
def MCPContext.add_disputed_point (ctx : MCPContext) (point : String) : MCPContext :=
  if point ∈ ctx.disputed_points then ctx
  else { ctx with disputed_points := ctx.disputed_points ++ [point] }

/-- Method `MCPContext.update_shared_knowledge`: dict upsert `shared_knowledge[key] = value`. -/
def MCPContext.update_shared_knowledge (ctx : MCPContext) (key value : String) : MCPContext :=
  if ctx.shared_knowledge.any (fun kv => kv.1 = key) then
    { ctx with shared_knowledge :=
        ctx.shared_knowledge.map (fun kv => if kv.1 = key then (key, value) else kv) }
  else
    { ctx with shared_knowledge := ctx.shared_knowledge ++ [(key, value)] }

/-- The three mutating operations `MCPContext` exposes. -/
inductive MCPOp where
  | addFact (s : String)
  | addPoint (s : String)
  | updateKnowledge (k v : String)
deriving DecidableEq, Repr

/-- Apply one `MCPContext` operation. -/
def MCPContext.apply_op (ctx : MCPContext) : MCPOp → MCPContext
  | MCPOp.addFact s => ctx.add_agreed_fact s
  | MCPOp.addPoint s => ctx.add_disputed_point s
  | MCPOp.updateKnowledge k v => ctx.update_shared_knowledge k v

/-- Apply a sequence of `MCPContext` operations, oldest first. -/
def MCPContext.apply_ops (ctx : MCPContext) (ops : List MCPOp) : MCPContext :=
  ops.foldl MCPContext.apply_op ctx

/-- A fresh `MCPContext()` as constructed by `DebateWorkflow`. -/
def MCPContext.empty : MCPContext := {}

/-! ## Configuration (`config.py`)

`config.py` defines a class `Config` of constants. The embedding makes it a
record so theorems can quantify over the configured threshold and method;
`Config.default` holds the literal values from `config.py`. -/

/-- The configuration constants the core reads. -/
structure Config where
  MAX_ROUNDS : Nat
  CONSENSUS_THRESHOLD : ℚ
  SIMILARITY_METHOD : String

/-- The literal values in `config.py`: `MAX_ROUNDS = 3`,
`CONSENSUS_THRESHOLD = 0.85`, `SIMILARITY_METHOD = "semantic"`. -/
def Config.default : Config :=
  { MAX_ROUNDS := 3, CONSENSUS_THRESHOLD := 85/100, SIMILARITY_METHOD := "semantic" }

/-! ## Consensus engine (`consensus_engine.py`) -/

/-- Characters kept by `preprocess_text`'s second regex
(`[^\w\s.,!?;:]` removed): word characters, whitespace, and basic
punctuation. -/
def keepChar (c : Char) : Bool :=
  c.isAlphanum || c = '_' || c.isWhitespace ||
    c = '.' || c = ',' || c = '!' || c = '?' || c = ';' || c = ':'

/-- Collapse runs of whitespace to single spaces and strip the ends
(`re.sub(r'\s+', ' ', text.strip())`). -/
def collapse_whitespace (s : String) : String :=
  " ".intercalate (((s.split Char.isWhitespace).filter (fun w => w ≠ "")))

/-- Method `ConsensusEngine.preprocess_text`: collapse whitespace, drop special
characters, lowercase. -/
def preprocess_text (s : String) : String :=
  (String.mk (((collapse_whitespace s).toList.filter keepChar))).toLower

/-- The dict key `f"response_{i}_vs_{j}"` used for the pair (i, j). -/
def pairKey (i j : Nat) : String :=
  "response_" ++ toString i ++ "_vs_" ++ toString j

/-- The index pairs visited by the nested loops
`for i in range(n): for j in range(i+1, n)`, in loop order. -/
def pairList (n : Nat) : List (Nat × Nat) :=
  (List.range n).flatMap (fun i =>
    (List.range' (i+1) (n - (i+1))).map (fun j => (i, j)))

/-- The state of a `ConsensusEngine` instance together with the behaviour of
its external numeric kernels.

* `embedding_model`: `some sim` iff the sentence-transformer model loaded;
  `sim p q` is the cosine similarity that the model-plus-sklearn pipeline
  produces for preprocessed texts `p` and `q` (an external, deterministic
  computation).
* `semantic_ok` / `tfidf_ok`: whether the corresponding `try` body runs to
  completion; `false` models the caught exception path that returns `{}`.
* `tfidf_sim`: the TF-IDF cosine kernel, likewise external. -/
structure Engine where
  embedding_model : Option (String → String → ℚ)
  semantic_ok : Bool
  tfidf_sim : String → String → ℚ
  tfidf_ok : Bool

/-- Method `ConsensusEngine.calculate_semantic_similarity`: `{}` if the model is
missing or fewer than 2 responses; else the pairwise cosine similarities of
the preprocessed texts, or `{}` if the computation raises. -/
def calculate_semantic_similarity (eng : Engine) (responses : List String) :
    List (String × ℚ) :=
  match eng.embedding_model with
  | none => []
  | some sim =>
    if responses.length < 2 then []
    else if eng.semantic_ok then
      let processed := responses.map preprocess_text
      (pairList responses.length).map
        (fun p => (pairKey p.1 p.2, sim (processed.getD p.1 "") (processed.getD p.2 "")))
    else []

/-- Method `ConsensusEngine.calculate_keyword_similarity`: `{}` if fewer than 2
responses; else the pairwise TF-IDF cosine similarities of the preprocessed
texts, or `{}` if the computation raises. -/
def calculate_keyword_similarity (eng : Engine) (responses : List String) :
    List (String × ℚ) :=
  if responses.length < 2 then []
  else if eng.tfidf_ok then
    let processed := responses.map preprocess_text
    (pairList responses.length).map
      (fun p => (pairKey p.1 p.2, eng.tfidf_sim (processed.getD p.1 "") (processed.getD p.2 "")))
  else []

/-- The `details` string of `_generate_consensus_details`, abstracted: the
claims do not constrain its text, only that it is produced. Numeric
formatting (`:.3f`) is replaced by plain `toString`. -/
def generate_consensus_details (responses : List DebaterResponse)
    (similarities : List (String × ℚ)) (avg : ℚ) : String :=
  " | ".intercalate
    (["Average similarity: " ++ toString avg] ++
     (if similarities.isEmpty then [] else
        ["Similarity range over " ++ toString similarities.length ++ " pairs"]) ++
     ["Response lengths: " ++ toString (responses.map (fun r => r.response.length))])

/-- Method `ConsensusEngine.analyze_consensus`. -/
def analyze_consensus (cfg : Config) (eng : Engine)
    (debater_responses : List DebaterResponse) : ConsensusAnalysis :=
  if debater_responses.length < 2 then
    { similarity_scores := []
      average_similarity := 0
      consensus_reached := false
      threshold_used := cfg.CONSENSUS_THRESHOLD
      analysis_method := "insufficient_data" }
  else
    let response_texts := debater_responses.map (fun r => r.response)
    let simsMethod :=
      if cfg.SIMILARITY_METHOD = "semantic" ∧ eng.embedding_model.isSome then
        (calculate_semantic_similarity eng response_texts, "semantic_embeddings")
      else
        (calculate_keyword_similarity eng response_texts, "tfidf_keywords")
    let similarities := simsMethod.1
    let avg_similarity : ℚ :=
      if similarities.isEmpty then 0
      else (similarities.map (fun kv => kv.2)).sum / (similarities.length : ℚ)
    { similarity_scores := similarities
      average_similarity := avg_similarity
      consensus_reached := decide (avg_similarity ≥ cfg.CONSENSUS_THRESHOLD)
      threshold_used := cfg.CONSENSUS_THRESHOLD
      analysis_method := simsMethod.2
      details := some (generate_consensus_details debater_responses similarities avg_similarity) }

/-! ## Debate workflow (`debate_workflow.py`)

The LangGraph graph is linear except for the conditional edge out of
`analyze_consensus`, so it is embedded as node functions
`DebateState → DebateState` composed by a loop.  External awaited calls are
oracle values; `Except.error e` models the call raising. -/

/-- The external calls a debate run can make, plus the engine state.

* `initial_responses`: the `asyncio.gather` of all
  `generate_initial_response` calls (fail-fast: one agent exception fails
  the whole gather).
* `rebuttal_responses r`: the gather of all `generate_rebuttal` calls for
  round `r`.
* `feedback r`: `analyze_responses_and_provide_feedback` for round `r`
  (the `should_continue` component of the Python tuple is discarded by the
  caller and omitted).
* `summary`: `generate_final_summary` (invoked once, at the end of a run).
* `infra_error`: `some e` iff `self.graph.ainvoke` raises outside the
  node-level `try` blocks (LangGraph / asyncio infrastructure failure with
  message `e`). -/
structure Oracles where
  initial_responses : Except String (List DebaterResponse)
  rebuttal_responses : Nat → Except String (List DebaterResponse)
  feedback : Nat → Except String String
  summary : Except String String
  engine : Engine
  infra_error : Option String := none

/-- Node `_initialize_debate`: set status to in-progress and the round counter
to 1 (the MCP-context reset touches only agent wiring, not the state). -/
def init_debate (s : DebateState) : DebateState :=
  { s with status := DebateStatus.in_progress, current_round := 1 }

/-- Node `_collect_initial_responses`: gather all debaters' initial responses and
append the round record; on exception, set status to error. -/
def collect_initial_responses (o : Oracles) (s : DebateState) : DebateState :=
  match o.initial_responses with
  | Except.ok responses =>
      { s with debater_responses := responses
               rounds_history := s.rounds_history ++
                 [{ round_number := s.current_round
                    question := s.question
                    debater_responses := responses }] }
  | Except.error _ => { s with status := DebateStatus.error }

/-- Set the `consensus_analysis` of the last round record, if any
(`state.rounds_history[-1].consensus_analysis = ca`). -/
def set_last_analysis : List DebateRound → ConsensusAnalysis → List DebateRound
  | [], _ => []
  | [r], ca => [{ r with consensus_analysis := some ca }]
  | r :: rs, ca => r :: set_last_analysis rs ca

/-- Set the `orchestrator_feedback` of the last round record, if any. -/
def set_last_feedback : List DebateRound → String → List DebateRound
  | [], _ => []
  | [r], fb => [{ r with orchestrator_feedback := some fb }]
  | r :: rs, fb => r :: set_last_feedback rs fb

/-- Node `_analyze_consensus`: skip when there are no responses; otherwise run the
engine, record the analysis on the last round and append the average to the
trajectory.  (`analyze_consensus` is total, so the node's `except` branch is
unreachable in the embedding.) -/
def analyze_consensus_node (cfg : Config) (o : Oracles) (s : DebateState) : DebateState :=
  if s.debater_responses.isEmpty then s
  else
    let ca := analyze_consensus cfg o.engine s.debater_responses
    { s with rounds_history := set_last_analysis s.rounds_history ca
             consensus_scores := s.consensus_scores ++ [ca.average_similarity] }

/-- Whether the latest round record exists, carries an analysis, and that
analysis reached consensus (the chained truthiness test in
`_should_continue_debate`). -/
def latest_consensus (s : DebateState) : Bool :=
  match s.rounds_history.getLast? with
  | some r =>
      match r.consensus_analysis with
      | some ca => ca.consensus_reached
      | none => false
  | none => false

/-- Router `_should_continue_debate`: the conditional-edge router out of
`analyze_consensus`.  It is a pure function of the state. -/
def should_continue_debate (s : DebateState) : String :=
  if s.current_round ≥ s.max_rounds then "max_rounds"
  else if latest_consensus s then "consensus"
  else "continue"

/-- Node `_generate_feedback`: ask the orchestrator for feedback and store it on
the state and the last round record; on exception, set status to error. -/
def generate_feedback (o : Oracles) (s : DebateState) : DebateState :=
  match o.feedback s.current_round with
  | Except.ok fb =>
      { s with orchestrator_feedback := some fb
               rounds_history := set_last_feedback s.rounds_history fb }
  | Except.error _ => { s with status := DebateStatus.error }

/-- Node `_collect_rebuttals`: increment the round counter (this happens before
the awaited gather, so it persists even on failure), then gather rebuttals
and append the round record; on exception, set status to error. -/
def collect_rebuttals (o : Oracles) (s : DebateState) : DebateState :=
  let s' := { s with current_round := s.current_round + 1 }
  match o.rebuttal_responses s'.current_round with
  | Except.ok responses =>
      { s' with debater_responses := responses
                rounds_history := s'.rounds_history ++
                  [{ round_number := s'.current_round
                     question := s'.question
                     debater_responses := responses }] }
  | Except.error _ => { s' with status := DebateStatus.error }

/-- Node `_finalize_debate`: produce the final summary and mark consensus
reached; on exception, set status to error. -/
def finalize_debate (o : Oracles) (s : DebateState) : DebateState :=
  match o.summary with
  | Except.ok text =>
      { s with final_summary := some text
               status := DebateStatus.consensus_reached }
  | Except.error _ => { s with status := DebateStatus.error }

/-- The note appended by `_handle_max_rounds` (numeric `:.3f` formatting
replaced by plain `toString`). -/
def max_rounds_note (s : DebateState) : String :=
  "\n\nNote: Consensus was not fully reached after " ++ toString s.max_rounds ++
    " rounds. Final similarity score: " ++
    toString (s.consensus_scores.getLastD 0)

/-- Node `_handle_max_rounds`: produce the final summary plus the
incomplete-consensus note and mark max-rounds exceeded; on exception, set
status to error. -/
def handle_max_rounds (o : Oracles) (s : DebateState) : DebateState :=
  match o.summary with
  | Except.ok text =>
      { s with final_summary := some (text ++ max_rounds_note s)
               status := DebateStatus.max_rounds_exceeded }
  | Except.error _ => { s with status := DebateStatus.error }

@[simp] lemma analyze_consensus_node_current_round (cfg : Config) (o : Oracles)
    (s : DebateState) : (analyze_consensus_node cfg o s).current_round = s.current_round := by
  unfold analyze_consensus_node; split <;> rfl

@[simp] lemma analyze_consensus_node_max_rounds (cfg : Config) (o : Oracles)
    (s : DebateState) : (analyze_consensus_node cfg o s).max_rounds = s.max_rounds := by
  unfold analyze_consensus_node; split <;> rfl

@[simp] lemma generate_feedback_current_round (o : Oracles) (s : DebateState) :
    (generate_feedback o s).current_round = s.current_round := by
  unfold generate_feedback; split <;> rfl

@[simp] lemma generate_feedback_max_rounds (o : Oracles) (s : DebateState) :
    (generate_feedback o s).max_rounds = s.max_rounds := by
  unfold generate_feedback; split <;> rfl

@[simp] lemma collect_rebuttals_current_round (o : Oracles) (s : DebateState) :
    (collect_rebuttals o s).current_round = s.current_round + 1 := by
  simp only [collect_rebuttals]; split <;> rfl

@[simp] lemma collect_rebuttals_max_rounds (o : Oracles) (s : DebateState) :
    (collect_rebuttals o s).max_rounds = s.max_rounds := by
  simp only [collect_rebuttals]; split <;> rfl

/-- If the router did not choose the max-rounds branch, the completed-round
count is still below the bound. -/
lemma lt_max_of_route_ne_max {s : DebateState}
    (h : should_continue_debate s ≠ "max_rounds") : s.current_round < s.max_rounds := by
  by_contra hc
  push_neg at hc
  apply h
  unfold should_continue_debate
  rw [if_pos hc]

/-- The loop of the compiled graph from the `analyze_consensus` node onward:
analyze, route, and either finalize or run a feedback/rebuttal round and
re-enter.  Terminates because `collect_rebuttals` increments
`current_round` while the continue branch requires it below `max_rounds`. -/
def runLoop (cfg : Config) (o : Oracles) (s : DebateState) : DebateState :=
  if h1 : should_continue_debate (analyze_consensus_node cfg o s) = "max_rounds" then
    handle_max_rounds o (analyze_consensus_node cfg o s)
  else if h2 : should_continue_debate (analyze_consensus_node cfg o s) = "consensus" then
    finalize_debate o (analyze_consensus_node cfg o s)
  else
    runLoop cfg o (collect_rebuttals o (generate_feedback o (analyze_consensus_node cfg o s)))
termination_by s.max_rounds - s.current_round
decreasing_by
  have hlt : s.current_round < s.max_rounds := by
    have := lt_max_of_route_ne_max h1
    simpa using this
  simp
  omega

/-- The sequence of states after each executed node, from `analyze_consensus`
onward (same control flow as `runLoop`). -/
def loopTrace (cfg : Config) (o : Oracles) (s : DebateState) : List DebateState :=
  if h1 : should_continue_debate (analyze_consensus_node cfg o s) = "max_rounds" then
    [analyze_consensus_node cfg o s, handle_max_rounds o (analyze_consensus_node cfg o s)]
  else if h2 : should_continue_debate (analyze_consensus_node cfg o s) = "consensus" then
    [analyze_consensus_node cfg o s, finalize_debate o (analyze_consensus_node cfg o s)]
  else
    analyze_consensus_node cfg o s ::
      generate_feedback o (analyze_consensus_node cfg o s) ::
        collect_rebuttals o (generate_feedback o (analyze_consensus_node cfg o s)) ::
          loopTrace cfg o (collect_rebuttals o (generate_feedback o (analyze_consensus_node cfg o s)))
termination_by s.max_rounds - s.current_round
decreasing_by
  have hlt : s.current_round < s.max_rounds := by
    have := lt_max_of_route_ne_max h1
    simpa using this
  simp
  omega

/-- Full graph run: entry point `initialize_debate`, then
`collect_initial_responses`, then the analyze/route loop. -/
def runGraph (cfg : Config) (o : Oracles) (s : DebateState) : DebateState :=
  runLoop cfg o (collect_initial_responses o (init_debate s))

/-- The sequence of states after each executed node of a full graph run. -/
def graphTrace (cfg : Config) (o : Oracles) (s : DebateState) : List DebateState :=
  let si := init_debate s
  let sc := collect_initial_responses o si
  si :: sc :: loopTrace cfg o sc

/-- Python's `max_rounds or Config.MAX_ROUNDS`: `None` and `0` both fall
back to the configured default. -/
def or_default (mr : Option Nat) (d : Nat) : Nat :=
  match mr with
  | none => d
  | some k => if k = 0 then d else k

/-- Method `DebateWorkflow.conduct_debate`: build the initial state, run the graph,
and package a `DebateResult`; any exception escaping the graph run is
converted into an error result (`total_rounds=0`, no rounds, diagnostic
summary) rather than propagated. -/
def conduct_debate (cfg : Config) (o : Oracles) (question : String)
    (max_rounds : Option Nat) : DebateResult :=
  match o.infra_error with
  | some e =>
      { original_question := question
        total_rounds := 0
        final_status := DebateStatus.error
        rounds := []
        final_summary := some ("Debate failed due to error: " ++ e) }
  | none =>
      let initial_state : DebateState :=
        { question := question
          max_rounds := or_default max_rounds cfg.MAX_ROUNDS
          consensus_threshold := cfg.CONSENSUS_THRESHOLD }
      let final_state := runGraph cfg o initial_state
      { original_question := question
        total_rounds := final_state.current_round
        final_status := final_state.status
        rounds := final_state.rounds_history
        final_summary := final_state.final_summary
        consensus_evolution := final_state.consensus_scores }

/-! ## General lemmas about the embedding -/

/-- The list `pairList n` enumerates exactly the unordered pairs `i < j < n`. -/
lemma mem_pairList {n i j : Nat} : (i, j) ∈ pairList n ↔ i < j ∧ j < n := by
  unfold pairList
  simp only [List.mem_flatMap, List.mem_map, List.mem_range, List.mem_range'_1, Prod.mk.injEq]
  constructor
  · rintro ⟨a, ha, b, ⟨hab, hbn⟩, hai, hbj⟩
    subst hai; subst hbj
    omega
  · rintro ⟨hij, hjn⟩
    exact ⟨i, by omega, j, ⟨by omega, by omega⟩, rfl, rfl⟩

/-- For at least two inputs the pair enumeration is nonempty. -/
lemma pairList_ne_nil {n : Nat} (h : 2 ≤ n) : pairList n ≠ [] := by
  intro hnil
  have : (0, 1) ∈ pairList n := mem_pairList.mpr ⟨by omega, by omega⟩
  rw [hnil] at this
  exact List.not_mem_nil _ this

/-- The nested loops visit `n * (n - 1) / 2` pairs. -/
lemma pairList_length (n : Nat) : (pairList n).length = n * (n - 1) / 2 := by
  unfold pairList
  rw [List.length_flatMap]
  simp only [Function.comp_def, List.length_map, List.length_range']
  have h2 : ((List.range n).map (fun i => n - (i + 1))).sum
      = ∑ i in Finset.range n, (n - (i + 1)) := rfl
  rw [h2]
  have h3 : ∀ i, n - (i + 1) = n - 1 - i := by omega
  calc ∑ i in Finset.range n, (n - (i + 1))
      = ∑ i in Finset.range n, (n - 1 - i) := by
        exact Finset.sum_congr rfl (fun i _ => h3 i)
    _ = ∑ i in Finset.range n, i := Finset.sum_range_reflect (fun i => i) n
    _ = n * (n - 1) / 2 := Finset.sum_range_id n

/-- Summing a function that is `1` on every element gives the length. -/
lemma sum_map_all_one {α : Type} (l : List α) (g : α → ℚ) (h : ∀ x ∈ l, g x = 1) :
    (l.map g).sum = (l.length : ℚ) := by
  induction l with
  | nil => simp
  | cons a t ih =>
      have ha : g a = 1 := h a (by simp)
      have ht : ∀ x ∈ t, g x = 1 := fun x hx => h x (by simp [hx])
      simp [ha, ih ht]
      ring

/-- Elements of a list whose members all equal `t` read back as `t` under
`getD` at in-range indices. -/
lemma getD_of_all_eq {l : List String} {t : String} (h : ∀ x ∈ l, x = t)
    {k : Nat} (hk : k < l.length) : l.getD k "" = t := by
  rw [List.getD_eq_getElem l _ hk]
  exact h _ (List.getElem_mem hk)

/-! ## Claim theorems -/

/-- A default engine whose kernels always fail (model missing, both
computations raising). -/
def engine0 : Engine :=
  { embedding_model := none, semantic_ok := false,
    tfidf_sim := fun _ _ => 0, tfidf_ok := false }

/-- An engine whose semantic model is loaded and whose kernels report
similarity 1 for every pair and never fail. -/
def engine1 : Engine :=
  { embedding_model := some (fun _ _ => 1), semantic_ok := true,
    tfidf_sim := fun _ _ => 1, tfidf_ok := true }

/-- Concrete oracles: the graph run itself would succeed, but the LangGraph
invocation raises with message `"boom"`. -/
def oracle_boom : Oracles :=
  { initial_responses := Except.ok []
    rebuttal_responses := fun _ => Except.ok []
    feedback := fun _ => Except.ok "fb"
    summary := Except.ok "sum"
    engine := engine0
    infra_error := some "boom" }

/-- C1: any exception escaping the graph run is converted at the
`conduct_debate` boundary into a returned result (the embedding is a total
function, so the method never raises) with status `error` (the spec's
`Failed`) and a final summary that names the error. -/
theorem conduct_debate_error_boundary (cfg : Config) (o : Oracles) (q : String)
    (mr : Option Nat) (e : String) (h : o.infra_error = some e) :
    (conduct_debate cfg o q mr).final_status = DebateStatus.error ∧
    (conduct_debate cfg o q mr).final_summary =
      some ("Debate failed due to error: " ++ e) := by
  unfold conduct_debate
  rw [h]
  exact ⟨rfl, rfl⟩

theorem conduct_debate_error_boundary_witness :
    (conduct_debate Config.default oracle_boom "q" none).final_status = DebateStatus.error ∧
    (conduct_debate Config.default oracle_boom "q" none).final_summary =
      some ("Debate failed due to error: " ++ "boom") :=
  conduct_debate_error_boundary Config.default oracle_boom "q" none "boom" rfl

/-- C9: the error result constructed on the exception path of
`conduct_debate` reports zero rounds, an empty round list and an empty
consensus trajectory, whatever progress the run had made. -/
theorem conduct_debate_error_discards_progress (cfg : Config) (o : Oracles)
    (q : String) (mr : Option Nat) (e : String) (h : o.infra_error = some e) :
    (conduct_debate cfg o q mr).total_rounds = 0 ∧
    (conduct_debate cfg o q mr).rounds = [] ∧
    (conduct_debate cfg o q mr).consensus_evolution = [] := by
  unfold conduct_debate
  rw [h]
  exact ⟨rfl, rfl, rfl⟩

theorem conduct_debate_error_discards_progress_witness :
    (conduct_debate Config.default oracle_boom "q2" (some 5)).total_rounds = 0 ∧
    (conduct_debate Config.default oracle_boom "q2" (some 5)).rounds = [] ∧
    (conduct_debate Config.default oracle_boom "q2" (some 5)).consensus_evolution = [] :=
  conduct_debate_error_discards_progress Config.default oracle_boom "q2" (some 5) "boom" rfl

/-- C2: the round-transition router is a pure function of the state and
checks the max-round bound before consensus: at or above the bound it
returns `"max_rounds"` even if the latest analysis reached consensus; below
the bound it returns `"consensus"` exactly when the latest round's
`consensus_reached` flag is set, and `"continue"` otherwise. -/
theorem should_continue_debate_spec (s : DebateState) :
    (s.max_rounds ≤ s.current_round → should_continue_debate s = "max_rounds") ∧
    (s.current_round < s.max_rounds → latest_consensus s = true →
      should_continue_debate s = "consensus") ∧
    (s.current_round < s.max_rounds → latest_consensus s = false →
      should_continue_debate s = "continue") := by
  unfold should_continue_debate
  refine ⟨fun h => ?_, fun h hc => ?_, fun h hc => ?_⟩
  · rw [if_pos h]
  · rw [if_neg (by omega), if_pos hc]
  · rw [if_neg (by omega), if_neg (by simp [hc])]

/-- An analysis record whose consensus flag is set. -/
def ca_reached : ConsensusAnalysis :=
  { similarity_scores := [], average_similarity := 1, consensus_reached := true,
    threshold_used := 85/100, analysis_method := "semantic_embeddings" }

/-- A state at its round bound with consensus also reached. -/
def st_at_max : DebateState :=
  { question := "q", current_round := 1, max_rounds := 1,
    rounds_history := [{ round_number := 1, question := "q", debater_responses := [],
                         consensus_analysis := some ca_reached }] }

/-- A state below its round bound whose latest round reached consensus. -/
def st_consensus : DebateState :=
  { question := "q", current_round := 1, max_rounds := 3,
    rounds_history := [{ round_number := 1, question := "q", debater_responses := [],
                         consensus_analysis := some ca_reached }] }

/-- A state below its round bound with no consensus yet. -/
def st_continue : DebateState :=
  { question := "q", current_round := 1, max_rounds := 3 }

theorem should_continue_debate_spec_witness :
    should_continue_debate st_at_max = "max_rounds" ∧
    should_continue_debate st_consensus = "consensus" ∧
    should_continue_debate st_continue = "continue" :=
  ⟨(should_continue_debate_spec st_at_max).1 (by decide),
   (should_continue_debate_spec st_consensus).2.1 (by decide) (by rfl),
   (should_continue_debate_spec st_continue).2.2 (by decide) (by rfl)⟩

/-- C5: with fewer than two responses, `analyze_consensus` returns the
insufficient-data record: consensus not reached, method
`"insufficient_data"`, empty similarity map, average similarity 0. -/
theorem analyze_consensus_insufficient_data (cfg : Config) (eng : Engine)
    (drs : List DebaterResponse) (h : drs.length < 2) :
    analyze_consensus cfg eng drs =
      { similarity_scores := [], average_similarity := 0, consensus_reached := false,
        threshold_used := cfg.CONSENSUS_THRESHOLD, analysis_method := "insufficient_data",
        details := none } := by
  unfold analyze_consensus
  rw [if_pos h]

theorem analyze_consensus_insufficient_data_witness :
    ([] : List DebaterResponse).length < 2 ∧
    analyze_consensus Config.default engine1 [] =
      { similarity_scores := [], average_similarity := 0, consensus_reached := false,
        threshold_used := Config.default.CONSENSUS_THRESHOLD,
        analysis_method := "insufficient_data", details := none } :=
  ⟨by decide, analyze_consensus_insufficient_data Config.default engine1 [] (by decide)⟩

/-! ### Shared-context dedup (C8) -/

lemma add_agreed_fact_agreed_nodup {ctx : MCPContext} (h : ctx.agreed_facts.Nodup)
    (x : String) : (ctx.add_agreed_fact x).agreed_facts.Nodup := by
  unfold MCPContext.add_agreed_fact
  split
  · exact h
  · next hx => simp [List.nodup_append, h, hx]

lemma add_disputed_point_disputed_nodup {ctx : MCPContext} (h : ctx.disputed_points.Nodup)
    (x : String) : (ctx.add_disputed_point x).disputed_points.Nodup := by
  unfold MCPContext.add_disputed_point
  split
  · exact h
  · next hx => simp [List.nodup_append, h, hx]

@[simp] lemma add_agreed_fact_disputed (ctx : MCPContext) (x : String) :
    (ctx.add_agreed_fact x).disputed_points = ctx.disputed_points := by
  unfold MCPContext.add_agreed_fact; split <;> rfl

@[simp] lemma add_disputed_point_agreed (ctx : MCPContext) (x : String) :
    (ctx.add_disputed_point x).agreed_facts = ctx.agreed_facts := by
  unfold MCPContext.add_disputed_point; split <;> rfl

@[simp] lemma update_shared_knowledge_agreed (ctx : MCPContext) (k v : String) :
    (ctx.update_shared_knowledge k v).agreed_facts = ctx.agreed_facts := by
  unfold MCPContext.update_shared_knowledge; split <;> rfl

@[simp] lemma update_shared_knowledge_disputed (ctx : MCPContext) (k v : String) :
    (ctx.update_shared_knowledge k v).disputed_points = ctx.disputed_points := by
  unfold MCPContext.update_shared_knowledge; split <;> rfl

/-- Inserting a string already present is a no-op. -/
lemma add_agreed_fact_mem_eq {c : MCPContext} {x : String} (h : x ∈ c.agreed_facts) :
    c.add_agreed_fact x = c := by
  unfold MCPContext.add_agreed_fact; rw [if_pos h]

/-- Inserting a string already present is a no-op. -/
lemma add_disputed_point_mem_eq {c : MCPContext} {x : String} (h : x ∈ c.disputed_points) :
    c.add_disputed_point x = c := by
  unfold MCPContext.add_disputed_point; rw [if_pos h]

/-- Every operation preserves the no-duplicates invariant of both sets. -/
lemma apply_op_nodup {ctx : MCPContext} (h1 : ctx.agreed_facts.Nodup)
    (h2 : ctx.disputed_points.Nodup) (op : MCPOp) :
    (ctx.apply_op op).agreed_facts.Nodup ∧ (ctx.apply_op op).disputed_points.Nodup := by
  cases op with
  | addFact s =>
      refine ⟨add_agreed_fact_agreed_nodup h1 s, ?_⟩
      show (ctx.add_agreed_fact s).disputed_points.Nodup
      simpa using h2
  | addPoint s =>
      refine ⟨?_, add_disputed_point_disputed_nodup h2 s⟩
      show (ctx.add_disputed_point s).agreed_facts.Nodup
      simpa using h1
  | updateKnowledge k v =>
      constructor
      · show (ctx.update_shared_knowledge k v).agreed_facts.Nodup
        simpa using h1
      · show (ctx.update_shared_knowledge k v).disputed_points.Nodup
        simpa using h2

/-- Any operation sequence preserves the no-duplicates invariant. -/
lemma apply_ops_nodup (ops : List MCPOp) :
    ∀ ctx : MCPContext, ctx.agreed_facts.Nodup → ctx.disputed_points.Nodup →
      (ctx.apply_ops ops).agreed_facts.Nodup ∧ (ctx.apply_ops ops).disputed_points.Nodup := by
  induction ops with
  | nil => intro ctx h1 h2; exact ⟨h1, h2⟩
  | cons op t ih =>
      intro ctx h1 h2
      have h := apply_op_nodup h1 h2 op
      exact ih (ctx.apply_op op) h.1 h.2

lemma mem_add_agreed_fact (ctx : MCPContext) (x : String) :
    x ∈ (ctx.add_agreed_fact x).agreed_facts := by
  unfold MCPContext.add_agreed_fact
  split
  · next hx => exact hx
  · simp

lemma mem_add_disputed_point (ctx : MCPContext) (x : String) :
    x ∈ (ctx.add_disputed_point x).disputed_points := by
  unfold MCPContext.add_disputed_point
  split
  · next hx => exact hx
  · simp

/-- Adding a fact twice from a duplicate-free state leaves exactly one copy. -/
lemma add_agreed_fact_twice_count {ctx : MCPContext} (h : ctx.agreed_facts.Nodup)
    (x : String) : ((ctx.add_agreed_fact x).add_agreed_fact x).agreed_facts.count x = 1 := by
  have hmem : x ∈ (ctx.add_agreed_fact x).agreed_facts := mem_add_agreed_fact ctx x
  have hnd : (ctx.add_agreed_fact x).agreed_facts.Nodup := add_agreed_fact_agreed_nodup h x
  rw [add_agreed_fact_mem_eq hmem]
  exact List.count_eq_one_of_mem hnd hmem

lemma add_disputed_point_twice_count {ctx : MCPContext} (h : ctx.disputed_points.Nodup)
    (x : String) :
    ((ctx.add_disputed_point x).add_disputed_point x).disputed_points.count x = 1 := by
  have hmem : x ∈ (ctx.add_disputed_point x).disputed_points := mem_add_disputed_point ctx x
  have hnd : (ctx.add_disputed_point x).disputed_points.Nodup :=
    add_disputed_point_disputed_nodup h x
  rw [add_disputed_point_mem_eq hmem]
  exact List.count_eq_one_of_mem hnd hmem

/-- C8: `add_agreed_fact` and `add_disputed_point` are idempotent inserts by
exact string match: re-adding is a no-op on any state; from any state
reachable from a fresh context by the three mutators, adding a string twice
leaves exactly one copy, and `agreed_facts`/`disputed_points` never hold
duplicate exact strings. -/
theorem mcp_context_dedup :
    (∀ (ctx : MCPContext) (x : String),
        (ctx.add_agreed_fact x).add_agreed_fact x = ctx.add_agreed_fact x ∧
        (ctx.add_disputed_point x).add_disputed_point x = ctx.add_disputed_point x) ∧
    (∀ (ops : List MCPOp) (x : String),
        (((MCPContext.empty.apply_ops ops).add_agreed_fact x).add_agreed_fact x).agreed_facts.count x = 1 ∧
        (((MCPContext.empty.apply_ops ops).add_disputed_point x).add_disputed_point x).disputed_points.count x = 1) ∧
    (∀ ops : List MCPOp,
        (MCPContext.empty.apply_ops ops).agreed_facts.Nodup ∧
        (MCPContext.empty.apply_ops ops).disputed_points.Nodup) := by
  have hbase := fun ops => apply_ops_nodup ops MCPContext.empty (by simp [MCPContext.empty])
    (by simp [MCPContext.empty])
  refine ⟨fun ctx x => ⟨?_, ?_⟩, fun ops x => ⟨?_, ?_⟩, hbase⟩
  · exact add_agreed_fact_mem_eq (mem_add_agreed_fact ctx x)
  · exact add_disputed_point_mem_eq (mem_add_disputed_point ctx x)
  · exact add_agreed_fact_twice_count (hbase ops).1 x
  · exact add_disputed_point_twice_count (hbase ops).2 x

/-! ### Consensus analysis on at least two responses (C6, C7, C10) -/

/-- The similarity strategy `analyze_consensus` selects, as a function of
configuration and engine state (mirrors the `if` on `SIMILARITY_METHOD`). -/
abbrev semantic_selected (cfg : Config) (eng : Engine) : Prop :=
  cfg.SIMILARITY_METHOD = "semantic" ∧ eng.embedding_model.isSome

/-- The selected strategy's `try` body runs without raising. -/
def strategy_succeeds (cfg : Config) (eng : Engine) : Prop :=
  if semantic_selected cfg eng then eng.semantic_ok = true else eng.tfidf_ok = true

/-- The pairwise similarity kernel of the selected strategy. -/
def selected_sim (cfg : Config) (eng : Engine) : String → String → ℚ :=
  if semantic_selected cfg eng then eng.embedding_model.getD (fun _ _ => 0)
  else eng.tfidf_sim

/-- The similarity map on the success path: the pair enumeration mapped
through the selected kernel on preprocessed texts. -/
def success_scores (cfg : Config) (eng : Engine) (drs : List DebaterResponse) :
    List (String × ℚ) :=
  (pairList drs.length).map (fun p =>
    (pairKey p.1 p.2,
     selected_sim cfg eng
       (((drs.map (fun r => r.response)).map preprocess_text).getD p.1 "")
       (((drs.map (fun r => r.response)).map preprocess_text).getD p.2 "")))

/-- The arithmetic mean of the scores on the success path. -/
def success_avg (cfg : Config) (eng : Engine) (drs : List DebaterResponse) : ℚ :=
  ((success_scores cfg eng drs).map (fun kv => kv.2)).sum /
    ((success_scores cfg eng drs).length : ℚ)

/-- Full evaluation of `analyze_consensus` on the success path with at
least two responses: one score per unordered pair of preprocessed texts,
the average is the arithmetic mean, and the consensus flag is exactly the
threshold test. -/
lemma analyze_consensus_success (cfg : Config) (eng : Engine)
    (drs : List DebaterResponse) (h2 : 2 ≤ drs.length)
    (hok : strategy_succeeds cfg eng) :
    analyze_consensus cfg eng drs =
      { similarity_scores := success_scores cfg eng drs
        average_similarity := success_avg cfg eng drs
        consensus_reached := decide (success_avg cfg eng drs ≥ cfg.CONSENSUS_THRESHOLD)
        threshold_used := cfg.CONSENSUS_THRESHOLD
        analysis_method :=
          if semantic_selected cfg eng then "semantic_embeddings" else "tfidf_keywords"
        details := some (generate_consensus_details drs (success_scores cfg eng drs)
          (success_avg cfg eng drs)) } := by
  have hn2 : ¬ drs.length < 2 := by omega
  have hpne : pairList drs.length ≠ [] := pairList_ne_nil h2
  have hempty : (success_scores cfg eng drs).isEmpty = false := by
    unfold success_scores
    simp [List.isEmpty_iff, hpne]
  unfold analyze_consensus
  rw [if_neg hn2]
  dsimp only
  by_cases hsel : semantic_selected cfg eng
  · obtain ⟨f, hf⟩ := Option.isSome_iff_exists.mp hsel.2
    have hok' : eng.semantic_ok = true := by
      unfold strategy_succeeds at hok
      rwa [if_pos hsel] at hok
    have hselsim : selected_sim cfg eng = f := by
      unfold selected_sim
      rw [if_pos hsel, hf]
      rfl
    have hsim : calculate_semantic_similarity eng (drs.map (fun r => r.response)) =
        success_scores cfg eng drs := by
      unfold calculate_semantic_similarity success_scores
      rw [hf]
      simp only [List.length_map]
      rw [if_neg hn2, if_pos hok', hselsim]
    rw [if_pos hsel, hsim]
    simp only [hempty, Bool.false_eq_true, if_false, if_pos hsel]
    rfl
  · have hok' : eng.tfidf_ok = true := by
      unfold strategy_succeeds at hok
      rwa [if_neg hsel] at hok
    have hselsim : selected_sim cfg eng = eng.tfidf_sim := by
      unfold selected_sim
      rw [if_neg hsel]
    have hsim : calculate_keyword_similarity eng (drs.map (fun r => r.response)) =
        success_scores cfg eng drs := by
      unfold calculate_keyword_similarity success_scores
      simp only [List.length_map]
      rw [if_neg hn2, if_pos hok', hselsim]
    rw [if_neg hsel, hsim]
    simp only [hempty, Bool.false_eq_true, if_false, if_neg hsel]
    rfl

/-- A concrete debater response. -/
def resp_a : DebaterResponse :=
  { debater_name := "A", model := "m1", response := "cats are mammals", round_number := 1,
    response_length := 16 }

/-- A second concrete debater response. -/
def resp_b : DebaterResponse :=
  { debater_name := "B", model := "m2", response := "dogs are mammals", round_number := 1,
    response_length := 16 }

/-- A concrete two-response input. -/
def drs_two : List DebaterResponse := [resp_a, resp_b]

/-- Two identical concrete responses. -/
def drs_same : List DebaterResponse :=
  [{ resp_a with response := "same text" }, { resp_b with response := "same text" }]

/-- C6: with at least two responses and a similarity strategy whose kernel
does not raise, `analyze_consensus` reports one score per unordered pair
`i < j` (the key list is exactly the pair enumeration, whose members are
characterized below and whose length is `n * (n-1) / 2`), its average is
the arithmetic mean of the reported scores, and the consensus flag holds
exactly when that average is at least the configured threshold. -/
theorem analyze_consensus_pairwise_mean (cfg : Config) (eng : Engine)
    (drs : List DebaterResponse) (h2 : 2 ≤ drs.length)
    (hok : strategy_succeeds cfg eng) :
    ((analyze_consensus cfg eng drs).similarity_scores.map (fun kv => kv.1) =
      (pairList drs.length).map (fun p => pairKey p.1 p.2)) ∧
    (∀ i j : Nat, (i, j) ∈ pairList drs.length ↔ i < j ∧ j < drs.length) ∧
    ((analyze_consensus cfg eng drs).similarity_scores.length =
      drs.length * (drs.length - 1) / 2) ∧
    ((analyze_consensus cfg eng drs).average_similarity =
      ((analyze_consensus cfg eng drs).similarity_scores.map (fun kv => kv.2)).sum /
        ((analyze_consensus cfg eng drs).similarity_scores.length : ℚ)) ∧
    ((analyze_consensus cfg eng drs).consensus_reached = true ↔
      (analyze_consensus cfg eng drs).average_similarity ≥ cfg.CONSENSUS_THRESHOLD) := by
  rw [analyze_consensus_success cfg eng drs h2 hok]
  refine ⟨?_, fun i j => mem_pairList, ?_, ?_, ?_⟩
  · unfold success_scores
    simp [List.map_map, Function.comp_def]
  · unfold success_scores
    simp [List.length_map, pairList_length]
  · unfold success_avg
    rfl
  · simp [decide_eq_true_iff]

theorem analyze_consensus_pairwise_mean_witness :
    2 ≤ drs_two.length ∧ strategy_succeeds Config.default engine1 ∧
    (((analyze_consensus Config.default engine1 drs_two).similarity_scores.map (fun kv => kv.1) =
        (pairList drs_two.length).map (fun p => pairKey p.1 p.2)) ∧
      (∀ i j : Nat, (i, j) ∈ pairList drs_two.length ↔ i < j ∧ j < drs_two.length) ∧
      ((analyze_consensus Config.default engine1 drs_two).similarity_scores.length =
        drs_two.length * (drs_two.length - 1) / 2) ∧
      ((analyze_consensus Config.default engine1 drs_two).average_similarity =
        ((analyze_consensus Config.default engine1 drs_two).similarity_scores.map
            (fun kv => kv.2)).sum /
          ((analyze_consensus Config.default engine1 drs_two).similarity_scores.length : ℚ)) ∧
      ((analyze_consensus Config.default engine1 drs_two).consensus_reached = true ↔
        (analyze_consensus Config.default engine1 drs_two).average_similarity ≥
          Config.default.CONSENSUS_THRESHOLD)) :=
  ⟨by decide, by unfold strategy_succeeds; rw [if_pos (by constructor <;> rfl)]; rfl,
   analyze_consensus_pairwise_mean Config.default engine1 drs_two (by decide)
     (by unfold strategy_succeeds; rw [if_pos (by constructor <;> rfl)]; rfl)⟩

/-- C7: for identical input texts under a strategy whose kernel is 1 on any
text paired with itself (cosine similarity of identical embeddings), the
average similarity is exactly 1 in the rational embedding and the consensus
flag is exactly the test `1 ≥ threshold`; and the analysis is deterministic
for identical inputs (it is a pure function of the engine and the input). -/
theorem analyze_consensus_identical (cfg : Config) (eng : Engine)
    (drs : List DebaterResponse) (t : String) (h2 : 2 ≤ drs.length)
    (hall : ∀ r ∈ drs, r.response = t)
    (hok : strategy_succeeds cfg eng)
    (hrefl : ∀ p : String, selected_sim cfg eng p p = 1) :
    (analyze_consensus cfg eng drs).average_similarity = 1 ∧
    ((analyze_consensus cfg eng drs).consensus_reached = true ↔
      (1 : ℚ) ≥ cfg.CONSENSUS_THRESHOLD) ∧
    (∀ drs2 : List DebaterResponse, drs2 = drs →
      analyze_consensus cfg eng drs2 = analyze_consensus cfg eng drs) := by
  have hlen : ((drs.map (fun r => r.response)).map preprocess_text).length = drs.length := by
    simp
  have hprocessed : ∀ y ∈ (drs.map (fun r => r.response)).map preprocess_text,
      y = preprocess_text t := by
    intro y hy
    obtain ⟨z, hz, hzy⟩ := List.mem_map.mp hy
    obtain ⟨r, hr, hrz⟩ := List.mem_map.mp hz
    rw [← hzy, ← hrz, hall r hr]
  have hvals : ∀ x ∈ success_scores cfg eng drs, (fun kv : String × ℚ => kv.2) x = 1 := by
    intro x hx
    unfold success_scores at hx
    obtain ⟨p, hp, hpx⟩ := List.mem_map.mp hx
    obtain ⟨i, j⟩ := p
    obtain ⟨hij, hjn⟩ := mem_pairList.mp hp
    rw [← hpx]
    have e1 : ((drs.map (fun r => r.response)).map preprocess_text).getD i "" =
        preprocess_text t := getD_of_all_eq hprocessed (by omega)
    have e2 : ((drs.map (fun r => r.response)).map preprocess_text).getD j "" =
        preprocess_text t := getD_of_all_eq hprocessed (by omega)
    simp only [e1, e2]
    exact hrefl (preprocess_text t)
  have hne : success_scores cfg eng drs ≠ [] := by
    unfold success_scores
    intro hnil
    exact pairList_ne_nil h2 (List.map_eq_nil_iff.mp hnil)
  have hlenpos : 0 < (success_scores cfg eng drs).length := List.length_pos.mpr hne
  have havg : success_avg cfg eng drs = 1 := by
    unfold success_avg
    rw [sum_map_all_one _ _ hvals]
    exact div_self (by exact_mod_cast Nat.pos_iff_ne_zero.mp hlenpos)
  refine ⟨?_, ?_, fun drs2 h => by rw [h]⟩
  · rw [analyze_consensus_success cfg eng drs h2 hok]
    exact havg
  · rw [analyze_consensus_success cfg eng drs h2 hok]
    simp [havg, decide_eq_true_iff]

theorem analyze_consensus_identical_witness :
    2 ≤ drs_same.length ∧
    (∀ r ∈ drs_same, r.response = "same text") ∧
    (analyze_consensus Config.default engine1 drs_same).average_similarity = 1 ∧
    ((analyze_consensus Config.default engine1 drs_same).consensus_reached = true ↔
      (1 : ℚ) ≥ Config.default.CONSENSUS_THRESHOLD) :=
  ⟨by decide, by decide,
   (analyze_consensus_identical Config.default engine1 drs_same "same text" (by decide)
      (by decide)
      (by unfold strategy_succeeds; rw [if_pos (by constructor <;> rfl)]; rfl)
      (fun p => by unfold selected_sim; rw [if_pos (by constructor <;> rfl)]; rfl)).1,
   (analyze_consensus_identical Config.default engine1 drs_same "same text" (by decide)
      (by decide)
      (by unfold strategy_succeeds; rw [if_pos (by constructor <;> rfl)]; rfl)
      (fun p => by unfold selected_sim; rw [if_pos (by constructor <;> rfl)]; rfl)).2.1⟩

/-- An engine whose two kernels both raise (caught internally). -/
def engine_fail : Engine :=
  { embedding_model := some (fun _ _ => 1), semantic_ok := false,
    tfidf_sim := fun _ _ => 1, tfidf_ok := false }

/-- C10: if the selected similarity computation raises internally (both
strategies' `try` bodies fail), `analyze_consensus` still returns normally
with an empty similarity map and average similarity 0, so for every
positive threshold the consensus flag is false. -/
theorem analyze_consensus_all_kernels_fail (cfg : Config) (eng : Engine)
    (drs : List DebaterResponse) (h2 : 2 ≤ drs.length)
    (hs : eng.semantic_ok = false) (ht : eng.tfidf_ok = false) :
    (analyze_consensus cfg eng drs).similarity_scores = [] ∧
    (analyze_consensus cfg eng drs).average_similarity = 0 ∧
    (0 < cfg.CONSENSUS_THRESHOLD →
      (analyze_consensus cfg eng drs).consensus_reached = false) := by
  have hn2 : ¬ drs.length < 2 := by omega
  unfold analyze_consensus
  rw [if_neg hn2]
  dsimp only
  by_cases hsel : semantic_selected cfg eng
  · obtain ⟨f, hf⟩ := Option.isSome_iff_exists.mp hsel.2
    have hcalc : calculate_semantic_similarity eng (drs.map (fun r => r.response)) = [] := by
      unfold calculate_semantic_similarity
      rw [hf]
      simp [hs]
    rw [if_pos hsel, hcalc]
    refine ⟨rfl, by simp, fun hθ => ?_⟩
    simp [decide_eq_false (not_le.mpr hθ)]
  · have hcalc : calculate_keyword_similarity eng (drs.map (fun r => r.response)) = [] := by
      unfold calculate_keyword_similarity
      simp [ht]
    rw [if_neg hsel, hcalc]
    refine ⟨rfl, by simp, fun hθ => ?_⟩
    simp [decide_eq_false (not_le.mpr hθ)]

theorem analyze_consensus_all_kernels_fail_witness :
    2 ≤ drs_two.length ∧ 0 < Config.default.CONSENSUS_THRESHOLD ∧
    (analyze_consensus Config.default engine_fail drs_two).similarity_scores = [] ∧
    (analyze_consensus Config.default engine_fail drs_two).average_similarity = 0 ∧
    (analyze_consensus Config.default engine_fail drs_two).consensus_reached = false :=
  ⟨by decide, by norm_num [Config.default],
   (analyze_consensus_all_kernels_fail Config.default engine_fail drs_two (by decide)
      rfl rfl).1,
   (analyze_consensus_all_kernels_fail Config.default engine_fail drs_two (by decide)
      rfl rfl).2.1,
   (analyze_consensus_all_kernels_fail Config.default engine_fail drs_two (by decide)
      rfl rfl).2.2 (by norm_num [Config.default])⟩

/-! ### Node-level facts for the state-machine proofs (C3, C4) -/

@[simp] lemma set_last_analysis_length (l : List DebateRound) (ca : ConsensusAnalysis) :
    (set_last_analysis l ca).length = l.length := by
  induction l with
  | nil => rfl
  | cons r rs ih =>
      cases rs with
      | nil => rfl
      | cons b t =>
          show (r :: set_last_analysis (b :: t) ca).length = (r :: b :: t).length
          simp only [List.length_cons]
          rw [ih]
          simp

@[simp] lemma set_last_feedback_length (l : List DebateRound) (fb : String) :
    (set_last_feedback l fb).length = l.length := by
  induction l with
  | nil => rfl
  | cons r rs ih =>
      cases rs with
      | nil => rfl
      | cons b t =>
          show (r :: set_last_feedback (b :: t) fb).length = (r :: b :: t).length
          simp only [List.length_cons]
          rw [ih]
          simp

@[simp] lemma analyze_consensus_node_rounds_length (cfg : Config) (o : Oracles)
    (s : DebateState) :
    (analyze_consensus_node cfg o s).rounds_history.length = s.rounds_history.length := by
  unfold analyze_consensus_node; split
  · rfl
  · simp

@[simp] lemma analyze_consensus_node_status (cfg : Config) (o : Oracles) (s : DebateState) :
    (analyze_consensus_node cfg o s).status = s.status := by
  unfold analyze_consensus_node; split <;> rfl

@[simp] lemma generate_feedback_rounds_length (o : Oracles) (s : DebateState) :
    (generate_feedback o s).rounds_history.length = s.rounds_history.length := by
  unfold generate_feedback
  cases o.feedback s.current_round <;> simp

lemma generate_feedback_status (o : Oracles) (s : DebateState) :
    (generate_feedback o s).status = s.status ∨
    (generate_feedback o s).status = DebateStatus.error := by
  unfold generate_feedback
  cases o.feedback s.current_round
  · exact Or.inr rfl
  · exact Or.inl rfl

lemma collect_rebuttals_rounds_length_le (o : Oracles) (s : DebateState) :
    (collect_rebuttals o s).rounds_history.length ≤ s.rounds_history.length + 1 := by
  unfold collect_rebuttals
  dsimp only
  cases o.rebuttal_responses (s.current_round + 1) <;> simp

lemma collect_rebuttals_status (o : Oracles) (s : DebateState) :
    (collect_rebuttals o s).status = s.status ∨
    (collect_rebuttals o s).status = DebateStatus.error := by
  unfold collect_rebuttals
  dsimp only
  cases o.rebuttal_responses (s.current_round + 1)
  · exact Or.inr rfl
  · exact Or.inl rfl

lemma collect_initial_responses_status (o : Oracles) (s : DebateState) :
    (collect_initial_responses o s).status = s.status ∨
    (collect_initial_responses o s).status = DebateStatus.error := by
  unfold collect_initial_responses
  cases o.initial_responses
  · exact Or.inr rfl
  · exact Or.inl rfl

lemma collect_initial_responses_ok_rounds_length {o : Oracles}
    {rs : List DebaterResponse} (h : o.initial_responses = Except.ok rs) (s : DebateState) :
    (collect_initial_responses o s).rounds_history.length = s.rounds_history.length + 1 := by
  unfold collect_initial_responses
  rw [h]
  simp

lemma collect_initial_responses_rounds_length_le (o : Oracles) (s : DebateState) :
    (collect_initial_responses o s).rounds_history.length ≤ s.rounds_history.length + 1 := by
  unfold collect_initial_responses
  cases o.initial_responses <;> simp

@[simp] lemma collect_initial_responses_current_round (o : Oracles) (s : DebateState) :
    (collect_initial_responses o s).current_round = s.current_round := by
  unfold collect_initial_responses
  cases o.initial_responses <;> rfl

@[simp] lemma collect_initial_responses_max_rounds (o : Oracles) (s : DebateState) :
    (collect_initial_responses o s).max_rounds = s.max_rounds := by
  unfold collect_initial_responses
  cases o.initial_responses <;> rfl

@[simp] lemma handle_max_rounds_rounds_history (o : Oracles) (s : DebateState) :
    (handle_max_rounds o s).rounds_history = s.rounds_history := by
  unfold handle_max_rounds
  cases o.summary <;> rfl

@[simp] lemma handle_max_rounds_current_round (o : Oracles) (s : DebateState) :
    (handle_max_rounds o s).current_round = s.current_round := by
  unfold handle_max_rounds
  cases o.summary <;> rfl

lemma handle_max_rounds_status (o : Oracles) (s : DebateState) :
    (handle_max_rounds o s).status = DebateStatus.max_rounds_exceeded ∨
    (handle_max_rounds o s).status = DebateStatus.error := by
  unfold handle_max_rounds
  cases o.summary
  · exact Or.inr rfl
  · exact Or.inl rfl

lemma handle_max_rounds_status_ok {o : Oracles} {t : String}
    (h : o.summary = Except.ok t) (s : DebateState) :
    (handle_max_rounds o s).status = DebateStatus.max_rounds_exceeded := by
  unfold handle_max_rounds
  rw [h]

@[simp] lemma finalize_debate_rounds_history (o : Oracles) (s : DebateState) :
    (finalize_debate o s).rounds_history = s.rounds_history := by
  unfold finalize_debate
  cases o.summary <;> rfl

@[simp] lemma finalize_debate_current_round (o : Oracles) (s : DebateState) :
    (finalize_debate o s).current_round = s.current_round := by
  unfold finalize_debate
  cases o.summary <;> rfl

lemma finalize_debate_status (o : Oracles) (s : DebateState) :
    (finalize_debate o s).status = DebateStatus.consensus_reached ∨
    (finalize_debate o s).status = DebateStatus.error := by
  unfold finalize_debate
  cases o.summary
  · exact Or.inr rfl
  · exact Or.inl rfl

/-- The router returns `"max_rounds"` at or above the bound. -/
lemma route_max_of_ge {s : DebateState} (h : s.max_rounds ≤ s.current_round) :
    should_continue_debate s = "max_rounds" := by
  unfold should_continue_debate
  rw [if_pos h]

/-- Completed-round bound through the loop: if at loop entry the number of
recorded rounds is at most the current round and the current round is at
most the bound, both remain at most the bound on exit (the loop only
appends a round after incrementing `current_round`, and only re-enters
while `current_round < max_rounds`). -/
lemma runLoop_round_bound (cfg : Config) (o : Oracles) :
    ∀ (n : Nat) (s : DebateState), s.max_rounds - s.current_round ≤ n →
      s.rounds_history.length ≤ s.current_round →
      s.current_round ≤ s.max_rounds →
      (runLoop cfg o s).rounds_history.length ≤ s.max_rounds ∧
      (runLoop cfg o s).current_round ≤ s.max_rounds := by
  intro n
  induction n with
  | zero =>
      intro s hn hlen hcur
      have hroute : should_continue_debate (analyze_consensus_node cfg o s) = "max_rounds" :=
        route_max_of_ge (by simp; omega)
      rw [runLoop.eq_def, dif_pos hroute]
      constructor
      · rw [handle_max_rounds_rounds_history]
        rw [show (analyze_consensus_node cfg o s).rounds_history.length
              = s.rounds_history.length from analyze_consensus_node_rounds_length cfg o s]
        omega
      · rw [handle_max_rounds_current_round, analyze_consensus_node_current_round]
        omega
  | succ m ih =>
      intro s hn hlen hcur
      rw [runLoop.eq_def]
      by_cases h1 : should_continue_debate (analyze_consensus_node cfg o s) = "max_rounds"
      · rw [dif_pos h1]
        constructor
        · rw [handle_max_rounds_rounds_history]
          rw [show (analyze_consensus_node cfg o s).rounds_history.length
                = s.rounds_history.length from analyze_consensus_node_rounds_length cfg o s]
          omega
        · rw [handle_max_rounds_current_round, analyze_consensus_node_current_round]
          omega
      · rw [dif_neg h1]
        by_cases h2 : should_continue_debate (analyze_consensus_node cfg o s) = "consensus"
        · rw [dif_pos h2]
          constructor
          · rw [finalize_debate_rounds_history]
            rw [show (analyze_consensus_node cfg o s).rounds_history.length
                  = s.rounds_history.length from analyze_consensus_node_rounds_length cfg o s]
            omega
          · rw [finalize_debate_current_round, analyze_consensus_node_current_round]
            omega
        · rw [dif_neg h2]
          have hlt : s.current_round < s.max_rounds := by
            have := lt_max_of_route_ne_max h1
            simpa using this
          have hcur3 : (collect_rebuttals o (generate_feedback o
              (analyze_consensus_node cfg o s))).current_round = s.current_round + 1 := by
            simp
          have hmax3 : (collect_rebuttals o (generate_feedback o
              (analyze_consensus_node cfg o s))).max_rounds = s.max_rounds := by
            simp
          have hlen3 : (collect_rebuttals o (generate_feedback o
              (analyze_consensus_node cfg o s))).rounds_history.length ≤
              s.rounds_history.length + 1 := by
            have h := collect_rebuttals_rounds_length_le o
              (generate_feedback o (analyze_consensus_node cfg o s))
            simpa using h
          have hres := ih (collect_rebuttals o (generate_feedback o
              (analyze_consensus_node cfg o s))) (by omega) (by omega) (by omega)
          rw [hmax3] at hres
          exact hres

/-- Concrete oracles for a one-round run that succeeds end to end. -/
def oracle_ok : Oracles :=
  { initial_responses := Except.ok []
    rebuttal_responses := fun _ => Except.ok []
    feedback := fun _ => Except.ok "fb"
    summary := Except.ok "s"
    engine := engine0
    infra_error := none }

/-- C3: `max_rounds` caps completed rounds: every returned result reports at
most `or_default maxRounds MAX_ROUNDS` round records, and a run with an
effective bound of 1 whose external calls all succeed produces exactly one
round record with a terminal status (here always `max_rounds_exceeded`,
because the bound is checked before consensus), never `in_progress`. -/
theorem conduct_debate_round_bound (cfg : Config) (o : Oracles) (q : String)
    (mr : Option Nat) (hmax : 1 ≤ or_default mr cfg.MAX_ROUNDS) :
    ((conduct_debate cfg o q mr).rounds.length ≤ or_default mr cfg.MAX_ROUNDS) ∧
    (or_default mr cfg.MAX_ROUNDS = 1 → o.infra_error = none →
      (∃ rs, o.initial_responses = Except.ok rs) → (∃ t, o.summary = Except.ok t) →
      (conduct_debate cfg o q mr).rounds.length = 1 ∧
      ((conduct_debate cfg o q mr).final_status = DebateStatus.consensus_reached ∨
        (conduct_debate cfg o q mr).final_status = DebateStatus.max_rounds_exceeded) ∧
      (conduct_debate cfg o q mr).final_status ≠ DebateStatus.in_progress) := by
  constructor
  · unfold conduct_debate
    cases hinf : o.infra_error with
    | some e => simp
    | none =>
        dsimp only
        unfold runGraph
        have hcur : (collect_initial_responses o (init_debate
            { question := q, max_rounds := or_default mr cfg.MAX_ROUNDS,
              consensus_threshold := cfg.CONSENSUS_THRESHOLD })).current_round = 1 := by
          rw [collect_initial_responses_current_round]
          rfl
        have hmaxf : (collect_initial_responses o (init_debate
            { question := q, max_rounds := or_default mr cfg.MAX_ROUNDS,
              consensus_threshold := cfg.CONSENSUS_THRESHOLD })).max_rounds =
            or_default mr cfg.MAX_ROUNDS := by
          rw [collect_initial_responses_max_rounds]
          rfl
        have hlen : (collect_initial_responses o (init_debate
            { question := q, max_rounds := or_default mr cfg.MAX_ROUNDS,
              consensus_threshold := cfg.CONSENSUS_THRESHOLD })).rounds_history.length ≤ 1 := by
          have h := collect_initial_responses_rounds_length_le o (init_debate
            { question := q, max_rounds := or_default mr cfg.MAX_ROUNDS,
              consensus_threshold := cfg.CONSENSUS_THRESHOLD })
          simpa [init_debate] using h
        have hres := runLoop_round_bound cfg o
          ((collect_initial_responses o (init_debate
            { question := q, max_rounds := or_default mr cfg.MAX_ROUNDS,
              consensus_threshold := cfg.CONSENSUS_THRESHOLD })).max_rounds)
          (collect_initial_responses o (init_debate
            { question := q, max_rounds := or_default mr cfg.MAX_ROUNDS,
              consensus_threshold := cfg.CONSENSUS_THRESHOLD }))
          (by omega) (by rw [hcur]; exact hlen) (by rw [hcur, hmaxf]; omega)
        rw [hmaxf] at hres
        exact hres.1
  · intro h1 hinf ⟨rs, hrs⟩ ⟨t, ht⟩
    unfold conduct_debate
    rw [hinf]
    dsimp only
    unfold runGraph
    have hroute : should_continue_debate (analyze_consensus_node cfg o
        (collect_initial_responses o (init_debate
          { question := q, max_rounds := or_default mr cfg.MAX_ROUNDS,
            consensus_threshold := cfg.CONSENSUS_THRESHOLD }))) = "max_rounds" := by
      apply route_max_of_ge
      rw [analyze_consensus_node_max_rounds, analyze_consensus_node_current_round,
        collect_initial_responses_max_rounds, collect_initial_responses_current_round]
      show (init_debate _).max_rounds ≤ (init_debate _).current_round
      simp [init_debate, h1]
    rw [runLoop.eq_def, dif_pos hroute]
    refine ⟨?_, Or.inr (handle_max_rounds_status_ok ht _), ?_⟩
    · rw [handle_max_rounds_rounds_history]
      rw [show (analyze_consensus_node cfg o _).rounds_history.length
            = (collect_initial_responses o (init_debate
              { question := q, max_rounds := or_default mr cfg.MAX_ROUNDS,
                consensus_threshold := cfg.CONSENSUS_THRESHOLD })).rounds_history.length
          from analyze_consensus_node_rounds_length cfg o _]
      rw [collect_initial_responses_ok_rounds_length hrs]
      rfl
    · rw [handle_max_rounds_status_ok ht]
      simp

theorem conduct_debate_round_bound_witness :
    1 ≤ or_default (some 1) Config.default.MAX_ROUNDS ∧
    or_default (some 1) Config.default.MAX_ROUNDS = 1 ∧
    ((conduct_debate Config.default oracle_ok "q" (some 1)).rounds.length ≤
        or_default (some 1) Config.default.MAX_ROUNDS) ∧
    (conduct_debate Config.default oracle_ok "q" (some 1)).rounds.length = 1 ∧
    ((conduct_debate Config.default oracle_ok "q" (some 1)).final_status =
        DebateStatus.consensus_reached ∨
      (conduct_debate Config.default oracle_ok "q" (some 1)).final_status =
        DebateStatus.max_rounds_exceeded) ∧
    (conduct_debate Config.default oracle_ok "q" (some 1)).final_status ≠
      DebateStatus.in_progress := by
  have h := conduct_debate_round_bound Config.default oracle_ok "q" (some 1) (by decide)
  have h2 := h.2 (by decide) rfl ⟨[], rfl⟩ ⟨"s", rfl⟩
  exact ⟨by decide, by decide, h.1, h2.1, h2.2.1, h2.2.2⟩

/-! ### Status-terminality along the execution trace (C4) -/

lemma loopTrace_ne_nil (cfg : Config) (o : Oracles) (s : DebateState) :
    loopTrace cfg o s ≠ [] := by
  rw [loopTrace.eq_def]
  split_ifs <;> simp

/-- Along the loop, every state except possibly the last one has status
`in_progress` or `error`: the two finishing statuses are only ever set by
the final node of the run. -/
lemma loopTrace_dropLast_status (cfg : Config) (o : Oracles) :
    ∀ (n : Nat) (s : DebateState), s.max_rounds - s.current_round ≤ n →
      (s.status = DebateStatus.in_progress ∨ s.status = DebateStatus.error) →
      ∀ x ∈ (loopTrace cfg o s).dropLast,
        x.status = DebateStatus.in_progress ∨ x.status = DebateStatus.error := by
  have hexit : ∀ (s : DebateState) (final : DebateState),
      (s.status = DebateStatus.in_progress ∨ s.status = DebateStatus.error) →
      ∀ x ∈ ([analyze_consensus_node cfg o s, final] : List DebateState).dropLast,
        x.status = DebateStatus.in_progress ∨ x.status = DebateStatus.error := by
    intro s final hst x hx
    simp only [List.dropLast, List.mem_singleton] at hx
    rw [hx, analyze_consensus_node_status]
    exact hst
  intro n
  induction n with
  | zero =>
      intro s hn hst
      have hroute : should_continue_debate (analyze_consensus_node cfg o s) = "max_rounds" :=
        route_max_of_ge (by simp; omega)
      rw [loopTrace.eq_def, dif_pos hroute]
      exact hexit s _ hst
  | succ m ih =>
      intro s hn hst
      rw [loopTrace.eq_def]
      by_cases h1 : should_continue_debate (analyze_consensus_node cfg o s) = "max_rounds"
      · rw [dif_pos h1]
        exact hexit s _ hst
      · rw [dif_neg h1]
        by_cases h2 : should_continue_debate (analyze_consensus_node cfg o s) = "consensus"
        · rw [dif_pos h2]
          exact hexit s _ hst
        · rw [dif_neg h2]
          intro x hx
          have hlt : s.current_round < s.max_rounds := by
            have := lt_max_of_route_ne_max h1
            simpa using this
          have hs1 : (analyze_consensus_node cfg o s).status = DebateStatus.in_progress ∨
              (analyze_consensus_node cfg o s).status = DebateStatus.error := by
            rw [analyze_consensus_node_status]; exact hst
          have hs2 : (generate_feedback o (analyze_consensus_node cfg o s)).status =
              DebateStatus.in_progress ∨
              (generate_feedback o (analyze_consensus_node cfg o s)).status =
                DebateStatus.error := by
            rcases generate_feedback_status o (analyze_consensus_node cfg o s) with h | h
            · rw [h]; exact hs1
            · exact Or.inr h
          have hs3 : (collect_rebuttals o (generate_feedback o
              (analyze_consensus_node cfg o s))).status = DebateStatus.in_progress ∨
              (collect_rebuttals o (generate_feedback o
                (analyze_consensus_node cfg o s))).status = DebateStatus.error := by
            rcases collect_rebuttals_status o (generate_feedback o
              (analyze_consensus_node cfg o s)) with h | h
            · rw [h]; exact hs2
            · exact Or.inr h
          have hne : loopTrace cfg o (collect_rebuttals o (generate_feedback o
              (analyze_consensus_node cfg o s))) ≠ [] := loopTrace_ne_nil cfg o _
          rw [List.dropLast_cons_of_ne_nil (by simp [hne]),
            List.dropLast_cons_of_ne_nil (by simp [hne]),
            List.dropLast_cons_of_ne_nil hne] at hx
          rcases List.mem_cons.mp hx with h | hx
          · rw [h]; exact hs1
          rcases List.mem_cons.mp hx with h | hx
          · rw [h]; exact hs2
          rcases List.mem_cons.mp hx with h | hx
          · rw [h]; exact hs3
          · exact ih (collect_rebuttals o (generate_feedback o
              (analyze_consensus_node cfg o s))) (by simp; omega) hs3 x hx

/-- Along a full graph run, every state except possibly the last one has
status `in_progress` or `error`. -/
lemma graphTrace_dropLast_status (cfg : Config) (o : Oracles) (s0 : DebateState) :
    ∀ x ∈ (graphTrace cfg o s0).dropLast,
      x.status = DebateStatus.in_progress ∨ x.status = DebateStatus.error := by
  intro x hx
  unfold graphTrace at hx
  dsimp only at hx
  have hne : loopTrace cfg o (collect_initial_responses o (init_debate s0)) ≠ [] :=
    loopTrace_ne_nil cfg o _
  rw [List.dropLast_cons_of_ne_nil (by simp [hne]),
    List.dropLast_cons_of_ne_nil hne] at hx
  have hsc : (collect_initial_responses o (init_debate s0)).status =
      DebateStatus.in_progress ∨
      (collect_initial_responses o (init_debate s0)).status = DebateStatus.error := by
    rcases collect_initial_responses_status o (init_debate s0) with h | h
    · rw [h]; exact Or.inl rfl
    · exact Or.inr h
  rcases List.mem_cons.mp hx with h | hx
  · rw [h]; exact Or.inl rfl
  rcases List.mem_cons.mp hx with h | hx
  · rw [h]; exact hsc
  · exact loopTrace_dropLast_status cfg o
      ((collect_initial_responses o (init_debate s0)).max_rounds -
        (collect_initial_responses o (init_debate s0)).current_round)
      (collect_initial_responses o (init_debate s0)) (le_refl _) hsc x hx

/-- C4, amended: once a state of the execution trace carries status
`consensus_reached` or `max_rounds_exceeded`, no later state of the trace
has a different status (those two statuses are set only by the final node).
The original claim also listed `Failed` (`error`) as terminal; that part is
refuted by `status_error_then_overwritten` below. -/
theorem graphTrace_terminal_status_stable (cfg : Config) (o : Oracles)
    (s0 d : DebateState) (i j : Nat)
    (hj : j < (graphTrace cfg o s0).length) (hij : i ≤ j)
    (hterm : ((graphTrace cfg o s0).getD i d).status = DebateStatus.consensus_reached ∨
      ((graphTrace cfg o s0).getD i d).status = DebateStatus.max_rounds_exceeded) :
    ((graphTrace cfg o s0).getD j d).status = ((graphTrace cfg o s0).getD i d).status := by
  have hi : i < (graphTrace cfg o s0).length := lt_of_le_of_lt hij hj
  by_cases hlast : i = (graphTrace cfg o s0).length - 1
  · have hji : j = i := by omega
    rw [hji]
  · exfalso
    have hi' : i < (graphTrace cfg o s0).dropLast.length := by
      rw [List.length_dropLast]; omega
    have hmem : (graphTrace cfg o s0).getD i d ∈ (graphTrace cfg o s0).dropLast := by
      rw [List.getD_eq_getElem _ _ hi, ← List.getElem_dropLast _ i hi']
      exact List.getElem_mem hi'
    have hst := graphTrace_dropLast_status cfg o s0 _ hmem
    rcases hterm with h | h <;> rcases hst with h' | h' <;>
      rw [h] at h' <;> exact DebateStatus.noConfusion h'

/-- A one-round initial state for concrete runs of the trace. -/
def st_w : DebateState := { question := "q", max_rounds := 1 }

theorem graphTrace_terminal_status_stable_witness :
    3 < (graphTrace Config.default oracle_ok st_w).length ∧
    ((graphTrace Config.default oracle_ok st_w).getD 3 st_w).status =
      DebateStatus.max_rounds_exceeded ∧
    ((graphTrace Config.default oracle_ok st_w).getD 3 st_w).status =
      ((graphTrace Config.default oracle_ok st_w).getD 3 st_w).status := by
  have hlen : 3 < (graphTrace Config.default oracle_ok st_w).length := by
    unfold graphTrace
    dsimp only
    rw [loopTrace.eq_def, dif_pos (by decide)]
    decide
  have hst : ((graphTrace Config.default oracle_ok st_w).getD 3 st_w).status =
      DebateStatus.max_rounds_exceeded := by
    unfold graphTrace
    dsimp only
    rw [loopTrace.eq_def, dif_pos (by decide)]
    decide
  exact ⟨hlen, hst,
    graphTrace_terminal_status_stable Config.default oracle_ok st_w st_w 3 3 hlen
      (le_refl 3) (Or.inr hst)⟩

/-- Concrete oracles for which the initial agent collection raises while
the final summary call succeeds. -/
def oracle_fail_initial : Oracles :=
  { initial_responses := Except.error "agent timeout"
    rebuttal_responses := fun _ => Except.error "agent timeout"
    feedback := fun _ => Except.ok "fb"
    summary := Except.ok "s"
    engine := engine0
    infra_error := none }

/-- C4, counterexample to the claim as stated: with a failing initial
collection and `max_rounds = 1`, the state after step 1 of the trace has
status `error` (the spec's `Failed`), yet the final step of the same run
overwrites it with `max_rounds_exceeded` — so `Failed` is not terminal. -/
theorem status_error_then_overwritten :
    ((graphTrace Config.default oracle_fail_initial st_w).getD 1 st_w).status =
      DebateStatus.error ∧
    ((graphTrace Config.default oracle_fail_initial st_w).getD 3 st_w).status =
      DebateStatus.max_rounds_exceeded ∧
    (graphTrace Config.default oracle_fail_initial st_w).length = 4 := by
  unfold graphTrace
  dsimp only
  rw [loopTrace.eq_def, dif_pos (by decide)]
  refine ⟨by decide, by decide, by decide⟩

end LLMDebate
